import Mathlib

/-!
Shallow embedding of the OpenF1 dashboard's core pipeline
(`app/data_processor.py` and `app/data_loader.py`).

Modelling conventions:
* A pandas DataFrame is a list of typed rows (rows carry every column the
  functions touch, plus representative extra columns that ride along).
* A cell of a pandas object column is a `PyVal`: an int, a string, or the
  absent value (`None` as stored in an object column; `str` of it is
  "None", and `pd.notna` is false on it).
* Each Python function that receives a DataFrame argument is embedded as a
  Lean function returning a pair: the FIRST component is the final state of
  the caller's DataFrame object after the call (pandas boolean-mask
  selection and `sort_values` allocate fresh frames, so rebinding the local
  name leaves the argument untouched; a direct column assignment
  `df[col] = ...` mutates the argument in place), and the SECOND component
  is the returned value.
* `sort_values` on several columns uses numpy lexsort, which is a stable
  sort; it is embedded as `List.insertionSort`, which is stable and
  structurally recursive (so concrete runs reduce by `decide`).
* `DataFrame.empty` is `List.isEmpty`; for `process_stints` the empty
  branch returns the unchanged empty frame, embedded as the empty list of
  output rows (row-for-row identical, both have zero rows).
-/

namespace OpenF1

/-- A value in a pandas object column: an int, a string, or the absent value. -/
inductive PyVal where
  | vInt : Int → PyVal
  | vStr : String → PyVal
  | vNone : PyVal
deriving DecidableEq

/-- Python `str` applied to a cell (`str(None)` is the string "None"). -/
def pyStr : PyVal → String
  | .vInt n => toString n
  | .vStr s => s
  | .vNone => "None"

/-- Embedding of `pd.notna` on a single cell. -/
def pyNotna : PyVal → Bool
  | .vNone => false
  | _ => true

/-! Lap data (`laps` endpoint rows). `lap_duration` is a float that may be
absent (NaN), embedded as `Option Rat`; `session_key` and `is_pit_out_lap`
stand for the remaining columns that ride through unchanged. -/

structure LapRow where
  session_key : Int
  driver_number : Int
  lap_number : Int
  lap_duration : Option Rat
  is_pit_out_lap : Bool
deriving DecidableEq

/-- Sort key order of `sort_values(['driver_number', 'lap_number'])`:
lexicographic, ascending on both columns. -/
def lapOrder (a b : LapRow) : Prop :=
  a.driver_number < b.driver_number ∨
    (a.driver_number = b.driver_number ∧ a.lap_number ≤ b.lap_number)

instance lapOrderDec : DecidableRel lapOrder := fun a b => by
  unfold lapOrder; exact inferInstance

instance lapOrderTotal : IsTotal LapRow lapOrder :=
  ⟨by intro a b; unfold lapOrder; omega⟩

instance lapOrderTrans : IsTrans LapRow lapOrder :=
  ⟨by intro a b c hab hbc; unfold lapOrder at hab hbc ⊢; omega⟩

/-- Embedding of `process_lap_data`.  `df = df[df['lap_duration'].notna()]`
and `df = df.sort_values(...)` rebind the local name to fresh frames, so the
caller's frame (first component) is returned unchanged. -/
def processLapData (df : List LapRow) : List LapRow × List LapRow :=
  if df.isEmpty then (df, df)
  else
    let kept := df.filter (fun r => r.lap_duration.isSome)
    (df, kept.insertionSort lapOrder)

/-! Stint data (`stints` endpoint rows). `compound` is an object column that
may hold the absent value; `tyre_age_at_start` rides along. -/

structure StintRow where
  session_key : Int
  driver_number : Int
  stint_number : Int
  compound : Option String
  lap_start : Int
  lap_end : Int
  tyre_age_at_start : Int
deriving DecidableEq

/-- Output row of `process_stints`: same columns, `compound` filled so it is
never absent, plus the added `lap_count` column. -/
structure StintRowOut where
  session_key : Int
  driver_number : Int
  stint_number : Int
  compound : String
  lap_start : Int
  lap_end : Int
  tyre_age_at_start : Int
  lap_count : Int
deriving DecidableEq

/-- Sort key order of `sort_values(by=["driver_number", "stint_number"])`. -/
def stintOrder (a b : StintRow) : Prop :=
  a.driver_number < b.driver_number ∨
    (a.driver_number = b.driver_number ∧ a.stint_number ≤ b.stint_number)

instance stintOrderDec : DecidableRel stintOrder := fun a b => by
  unfold stintOrder; exact inferInstance

instance stintOrderTotal : IsTotal StintRow stintOrder :=
  ⟨by intro a b; unfold stintOrder; omega⟩

instance stintOrderTrans : IsTrans StintRow stintOrder :=
  ⟨by intro a b c hab hbc; unfold stintOrder at hab hbc ⊢; omega⟩

/-- Same key order read on the output rows. -/
def stintOutOrder (a b : StintRowOut) : Prop :=
  a.driver_number < b.driver_number ∨
    (a.driver_number = b.driver_number ∧ a.stint_number ≤ b.stint_number)

/-- Row-wise effect of the two column assignments of `process_stints`:
`fillna` replaces an absent compound by "Unknown", and the new `lap_count`
column is `lap_end - lap_start + 1`. -/
def stintOutOf (r : StintRow) : StintRowOut :=
  { session_key := r.session_key
    driver_number := r.driver_number
    stint_number := r.stint_number
    compound := r.compound.getD "Unknown"
    lap_start := r.lap_start
    lap_end := r.lap_end
    tyre_age_at_start := r.tyre_age_at_start
    lap_count := r.lap_end - r.lap_start + 1 }

/-- Embedding of `process_stints`.  `df = df.sort_values(...)` rebinds the
local name to a fresh frame; the two later column assignments
(`df["compound"] = ...fillna...`, `df["lap_count"] = ...`) mutate that fresh
frame, not the caller's frame, which is returned unchanged. -/
def processStints (df : List StintRow) : List StintRow × List StintRowOut :=
  if df.isEmpty then (df, [])
  else
    let sortedRows := df.insertionSort stintOrder
    (df, sortedRows.map stintOutOf)

/-! Pit stop data (`pit` endpoint rows). -/

structure PitRow where
  session_key : Int
  driver_number : Int
  lap_number : Int
  pit_duration : Option Rat
deriving DecidableEq

/-- Sort key order of `sort_values(by=["driver_number", "lap_number"])`. -/
def pitOrder (a b : PitRow) : Prop :=
  a.driver_number < b.driver_number ∨
    (a.driver_number = b.driver_number ∧ a.lap_number ≤ b.lap_number)

instance pitOrderDec : DecidableRel pitOrder := fun a b => by
  unfold pitOrder; exact inferInstance

instance pitOrderTotal : IsTotal PitRow pitOrder :=
  ⟨by intro a b; unfold pitOrder; omega⟩

instance pitOrderTrans : IsTrans PitRow pitOrder :=
  ⟨by intro a b c hab hbc; unfold pitOrder at hab hbc ⊢; omega⟩

/-- Embedding of `process_pit_stops`; same shape as `process_lap_data`. -/
def processPitStops (df : List PitRow) : List PitRow × List PitRow :=
  if df.isEmpty then (df, df)
  else
    let kept := df.filter (fun r => r.pit_duration.isSome)
    (df, kept.insertionSort pitOrder)

/-! Driver data (`drivers` endpoint rows).  `name_acronym`, `team_colour`
and `driver_number` are kept as raw cells, because the code applies `str`
and `astype(str)` to them and `team_colour` may be absent. -/

structure DriverRow where
  name_acronym : PyVal
  team_colour : PyVal
  driver_number : PyVal
deriving DecidableEq

/-- Python string method `s.startswith(pre)`, embedded on the character
lists (kernel-computable, unlike `String.startsWith`). -/
def pyStartsWith (s pre : String) : Bool :=
  pre.data.isPrefixOf s.data

/-- Embedding of the lambda in `build_driver_color_map`:
`f"#{x}" if not str(x).startswith("#") else x`. -/
def normColour (x : PyVal) : PyVal :=
  if pyStartsWith (pyStr x) "#" then x else .vStr ("#" ++ pyStr x)

/-- Embedding of `build_driver_color_map`.  Unlike the other processors, the
two column assignments (`driver_df["team_colour"] = ...apply(...)` and
`driver_df["driver_number"] = ...astype(str)`) are performed directly on the
parameter object, so the caller's frame IS mutated; the first component of
the result is its final state.  The returned dict is embedded as the list of
inserted (key, value) pairs in iteration order (`iterrows` order; on lookup
a later duplicate key would win). -/
def buildDriverColorMap (driver_df : List DriverRow) :
    List DriverRow × List (String × PyVal) :=
  if driver_df.isEmpty then (driver_df, [])
  else
    let d₁ := driver_df.map (fun r => { r with team_colour := normColour r.team_colour })
    let d₂ := d₁.map (fun r => { r with driver_number := .vStr (pyStr r.driver_number) })
    let cm := (d₂.filter (fun r => pyNotna r.team_colour)).map
      (fun r => (pyStr r.name_acronym, r.team_colour))
    (d₂, cm)

/-- Final state of one driver row after the two in-place column assignments
of `build_driver_color_map` (used to state the frame effect). -/
def mutateDriverRow (r : DriverRow) : DriverRow :=
  { r with
    team_colour := normColour r.team_colour
    driver_number := .vStr (pyStr r.driver_number) }

/-! Loader: `data_loader.py`. -/

/-- One raw JSON object of an API response, as a key/value list. -/
abbrev RawRecord := List (String × PyVal)

/-- An HTTP response as seen by `fetch_data` after the GET: a status code
and the decoded JSON array body. -/
structure HttpResponse where
  status : Nat
  body : List RawRecord
deriving DecidableEq

/-- The error raised by `requests.Response.raise_for_status`, carrying the
response status code. -/
structure HTTPError where
  status : Nat
deriving DecidableEq

/-- Embedding of `response.raise_for_status()` (requests semantics: raises
`HTTPError` exactly for client errors `400 <= status < 500` and server
errors `500 <= status < 600`; any other status, 2xx or not, passes). -/
def raiseForStatus (resp : HttpResponse) : Except HTTPError Unit :=
  if 400 ≤ resp.status ∧ resp.status < 600 then .error ⟨resp.status⟩ else .ok ()

/-- Embedding of `fetch_data`, applied to the response the prepared GET
returned: `raise_for_status`, then `pd.DataFrame(response.json())` (the
body records become the frame).  There is no retry path: the result is a
single `Except`, either the error or the one dataset. -/
def fetchData (resp : HttpResponse) : Except HTTPError (List RawRecord) :=
  match raiseForStatus resp with
  | .error e => .error e
  | .ok _ => .ok resp.body

/-! `fetch_meetings`, on well-formed meeting records (the claim quantifies
over valid `(year, country)` queries, whose responses carry these fields). -/

structure MeetingRow where
  meeting_key : Int
  meeting_name : String
  location : String
  country_name : String
  year : Int
deriving DecidableEq

/-- A meeting row after the `label` column assignment. -/
structure MeetingLab where
  row : MeetingRow
  label : String
deriving DecidableEq

/-- The projected output row of `fetch_meetings`:
`df[["meeting_key", "label", "year"]]` keeps exactly these columns. -/
structure MeetingOut where
  meeting_key : Int
  label : String
  year : Int
deriving DecidableEq

/-- Sort order of `sort_values(by="meeting_key", ascending=False)`:
meeting key descending. -/
def meetingOrder (a b : MeetingLab) : Prop :=
  b.row.meeting_key ≤ a.row.meeting_key

instance meetingOrderDec : DecidableRel meetingOrder := fun a b => by
  unfold meetingOrder; exact inferInstance

instance meetingOrderTotal : IsTotal MeetingLab meetingOrder :=
  ⟨by intro a b; unfold meetingOrder; omega⟩

instance meetingOrderTrans : IsTrans MeetingLab meetingOrder :=
  ⟨by intro a b c hab hbc; unfold meetingOrder at hab hbc ⊢; omega⟩

/-- Embedding of `DataFrame.drop_duplicates`: keeps the first occurrence of
every row value, preserving order (`seen` accumulates the values kept so
far). -/
def dropDupSeen [DecidableEq α] : List α → List α → List α
  | _, [] => []
  | seen, x :: xs =>
    if x ∈ seen then dropDupSeen seen xs
    else x :: dropDupSeen (x :: seen) xs

/-- Embedding of `drop_duplicates` proper. -/
def dropDuplicates [DecidableEq α] (l : List α) : List α :=
  dropDupSeen [] l

/-- Row-wise effect of the label assignment
`df["label"] = df["meeting_name"] + " - " + df["location"]`. -/
def meetingLabOf (r : MeetingRow) : MeetingLab :=
  { row := r, label := r.meeting_name ++ " - " ++ r.location }

/-- Row-wise effect of the projection `df[["meeting_key", "label", "year"]]`. -/
def meetingOutOf (x : MeetingLab) : MeetingOut :=
  { meeting_key := x.row.meeting_key, label := x.label, year := x.row.year }

/-- Embedding of `fetch_meetings`, applied to the parsed response rows.  The
boolean component records whether the user-facing empty-data warning
(`st.error`) was surfaced. -/
def fetchMeetings (rows : List MeetingRow) : Bool × List MeetingOut :=
  if rows.isEmpty then (true, [])
  else
    let labeled := rows.map meetingLabOf
    let sortedRows := labeled.insertionSort meetingOrder
    let projected := sortedRows.map meetingOutOf
    (false, dropDuplicates projected)

/-! `fetch_sessions`, on raw records: unlike `fetch_meetings` it has no
empty-input guard, and an empty JSON array gives a frame with NO columns,
so the very first column access `df["session_name"]` raises `KeyError`.
The dynamic column structure is modelled explicitly: the frame's columns
are the union of the record keys. -/

/-- Columns of `pd.DataFrame(arr)`: the union of the objects' keys, in
first-appearance order. -/
def unionKeys (arr : List RawRecord) : List String :=
  arr.foldl (fun acc r => acc ++ ((r.map Prod.fst).filter (fun k => ¬ acc.contains k))) []

/-- The pandas error surfaced by the loader on a missing column. -/
inductive PandasErr where
  | keyError : String → PandasErr
deriving DecidableEq

/-- Embedding of `df[c]` column access on a dynamically-shaped frame: raises
`KeyError c` when `c` is not among the columns, otherwise reads every row's
cell (absent key in a row reads as the absent value). -/
def getColumn (arr : List RawRecord) (c : String) : Except PandasErr (List PyVal) :=
  if (unionKeys arr).contains c then
    .ok (arr.map (fun r => (r.lookup c).getD .vNone))
  else
    .error (.keyError c)

/-- Pandas elementwise string concatenation (`series + str`): concatenates
strings; the absent value propagates. -/
def strAdd (a b : PyVal) : PyVal :=
  match a, b with
  | .vStr x, .vStr y => .vStr (x ++ y)
  | _, _ => .vNone

/-- Projected output row of `fetch_sessions`:
`df[["session_key", "label"]]`. -/
structure SessionOut where
  session_key : PyVal
  label : PyVal
deriving DecidableEq

/-- Embedding of `fetch_sessions`, applied to the parsed response records:
`df["label"] = df["session_name"] + " (" + df["date_start"] + ")"`, then
projection to `{session_key, label}` and `drop_duplicates`.  Every column
read is a checked access, so the missing-column `KeyError` is explicit. -/
def fetchSessions (arr : List RawRecord) : Except PandasErr (List SessionOut) := do
  let names ← getColumn arr "session_name"
  let dates ← getColumn arr "date_start"
  let labels := List.zipWith
    (fun n d => strAdd (strAdd (strAdd n (.vStr " (")) d) (.vStr ")")) names dates
  let keys ← getColumn arr "session_key"
  let rows := List.zipWith (fun k lab => { session_key := k, label := lab : SessionOut }) keys labels
  return dropDuplicates rows

/-! Helper lemmas. -/

/-- The kept rows of `dropDupSeen` form a sublist of the input. -/
theorem dropDupSeen_sublist [DecidableEq α] (seen l : List α) :
    List.Sublist (dropDupSeen seen l) l := by
  induction l generalizing seen with
  | nil => exact List.Sublist.refl []
  | cons x xs ih =>
    unfold dropDupSeen
    by_cases h : x ∈ seen
    · simp only [h, if_true]
      exact (ih seen).cons x
    · simp only [h, if_false]
      exact (ih (x :: seen)).cons₂ x

/-- No kept row was already seen, and the kept rows have no duplicates. -/
theorem dropDupSeen_nodup [DecidableEq α] (seen l : List α) :
    (∀ a ∈ dropDupSeen seen l, a ∉ seen) ∧ (dropDupSeen seen l).Nodup := by
  induction l generalizing seen with
  | nil =>
    simp only [dropDupSeen]
    exact ⟨fun a ha => absurd ha (List.not_mem_nil a), List.nodup_nil⟩
  | cons x xs ih =>
    unfold dropDupSeen
    by_cases h : x ∈ seen
    · simp only [h, if_true]
      exact ih seen
    · simp only [h, if_false]
      obtain ⟨h₁, h₂⟩ := ih (x :: seen)
      constructor
      · intro a ha
        rcases List.mem_cons.mp ha with rfl | ha
        · exact h
        · exact fun hs => h₁ a ha (List.mem_cons_of_mem x hs)
      · refine List.nodup_cons.mpr ⟨fun hx => ?_, h₂⟩
        exact h₁ x hx (List.mem_cons_self x seen)

/-- Embedded `drop_duplicates` returns a sublist of its input. -/
theorem dropDuplicates_sublist [DecidableEq α] (l : List α) :
    List.Sublist (dropDuplicates l) l :=
  dropDupSeen_sublist [] l

/-- Embedded `drop_duplicates` returns a list with no duplicate rows. -/
theorem dropDuplicates_nodup [DecidableEq α] (l : List α) :
    (dropDuplicates l).Nodup :=
  (dropDupSeen_nodup [] l).2

/-- Stability transfer: filtering a stable sort by a predicate whose
satisfying elements are mutually related gives exactly the filter of the
input, in input order. -/
theorem filter_insertionSort {α : Type} (r : α → α → Prop) [DecidableRel r]
    [IsTotal α r] [IsTrans α r] (p : α → Bool)
    (hp : ∀ a b, p a = true → p b = true → r a b) (l : List α) :
    (l.insertionSort r).filter p = l.filter p := by
  have hpair : (l.filter p).Pairwise r :=
    List.pairwise_of_forall_mem_list (fun a ha b hb =>
      hp a b (List.of_mem_filter ha) (List.of_mem_filter hb))
  have hsub : List.Sublist (l.filter p) (l.insertionSort r) :=
    List.sublist_insertionSort hpair (List.filter_sublist l)
  have hself : (l.filter p).filter p = l.filter p :=
    List.filter_eq_self.mpr (fun a ha => List.of_mem_filter ha)
  have hsub₂ : List.Sublist (l.filter p) ((l.insertionSort r).filter p) := by
    have h := hsub.filter p
    rwa [hself] at h
  have hlen : ((l.insertionSort r).filter p).length = (l.filter p).length :=
    ((List.perm_insertionSort r l).filter p).length_eq
  exact (hsub₂.eq_of_length hlen.symm).symm

/-- Unfolding of the returned frame of `process_lap_data`. -/
theorem processLapData_snd (df : List LapRow) :
    (processLapData df).2 =
      if df.isEmpty then df
      else (df.filter (fun r => r.lap_duration.isSome)).insertionSort lapOrder := by
  cases df <;> rfl

/-- Unfolding of the returned frame of `process_stints`. -/
theorem processStints_snd (df : List StintRow) :
    (processStints df).2 =
      if df.isEmpty then []
      else (df.insertionSort stintOrder).map stintOutOf := by
  cases df <;> rfl

/-- Unfolding of the returned frame of `process_pit_stops`. -/
theorem processPitStops_snd (df : List PitRow) :
    (processPitStops df).2 =
      if df.isEmpty then df
      else (df.filter (fun r => r.pit_duration.isSome)).insertionSort pitOrder := by
  cases df <;> rfl

/-- Unfolding of the dataset returned by `fetch_meetings`. -/
theorem fetchMeetings_snd (rows : List MeetingRow) :
    (fetchMeetings rows).2 =
      if rows.isEmpty then []
      else
        dropDuplicates (((rows.map meetingLabOf).insertionSort meetingOrder).map meetingOutOf) := by
  cases rows <;> rfl

/-! Claim theorems. -/

/-- C1 (evaluation at the failing input): a driver row whose team colour is
absent DOES produce a color-map entry.  The normalization pass rewrites the
absent value to the string "#None" before the `pd.notna` guard of the dict
comprehension runs, so the guard never fires; the claim (and the spec
scenario for "HAM") says such a row produces no entry. -/
theorem buildDriverColorMap_absent_colour_entry :
    (buildDriverColorMap
        [{ name_acronym := .vStr "HAM", team_colour := .vNone, driver_number := .vInt 44 }]).2 =
      [("HAM", PyVal.vStr "#None")] := by
  rfl

/-- C2 counterexample: `build_driver_color_map` mutates the dataset passed
in — after the call the team colour cell of the input row has changed. -/
theorem buildDriverColorMap_mutates_input :
    (buildDriverColorMap
        [{ name_acronym := .vStr "VER", team_colour := .vStr "1E41FF", driver_number := .vInt 1 }]).1 ≠
      [{ name_acronym := .vStr "VER", team_colour := .vStr "1E41FF", driver_number := .vInt 1 }] := by
  decide

/-- C2 (amended): `process_lap_data`, `process_stints` and
`process_pit_stops` leave the input dataset unchanged (they only rebind the
local name to fresh frames), while `build_driver_color_map` leaves an empty
input unchanged but mutates a non-empty input in place: every row has its
team colour normalized and its driver number converted to a string. -/
theorem processors_frame_effects :
    (∀ df : List LapRow, (processLapData df).1 = df) ∧
    (∀ df : List StintRow, (processStints df).1 = df) ∧
    (∀ df : List PitRow, (processPitStops df).1 = df) ∧
    (∀ driver_df : List DriverRow,
      (buildDriverColorMap driver_df).1 =
        if driver_df.isEmpty then driver_df else driver_df.map mutateDriverRow) := by
  refine ⟨fun df => ?_, fun df => ?_, fun df => ?_, fun driver_df => ?_⟩
  · cases df <;> rfl
  · cases df <;> rfl
  · cases df <;> rfl
  · cases driver_df with
    | nil => rfl
    | cons a t =>
      show (((a :: t).map
            (fun r => ({ r with team_colour := normColour r.team_colour } : DriverRow))).map
          (fun r => ({ r with driver_number := .vStr (pyStr r.driver_number) } : DriverRow))) =
        (a :: t).map mutateDriverRow
      rw [List.map_map]
      rfl

/-- C6 counterexample: status 304 is not a success status (non-2xx), yet
`fetch_data` does not fail: `raise_for_status` raises only for 4xx/5xx, so
the parsed body is returned as a dataset. -/
theorem fetchData_304_no_error :
    fetchData { status := 304, body := [] } = Except.ok [] ∧ ¬ (200 ≤ 304 ∧ 304 < 300) :=
  ⟨rfl, by decide⟩

/-- C6 (amended): `fetch_data` fails immediately with an HTTP error carrying
the status code exactly when the response status is a 4xx or 5xx (so in
particular a 404 response raises an HTTP error carrying 404, with no retry
and no dataset); any other status, 2xx or not, yields the parsed body as a
dataset. -/
theorem fetchData_status_spec :
    ∀ resp : HttpResponse,
      fetchData resp =
        if 400 ≤ resp.status ∧ resp.status < 600 then Except.error ⟨resp.status⟩
        else Except.ok resp.body := by
  intro resp
  unfold fetchData raiseForStatus
  by_cases h : 400 ≤ resp.status ∧ resp.status < 600
  · simp [h]
  · simp [h]

/-- C7: every processor maps a dataset with zero rows to a result with zero
rows (the empty dataset, or the empty mapping); all four embedded
processors are total functions, so no exception is possible. -/
theorem processors_empty_spec :
    processLapData ([] : List LapRow) = ([], []) ∧
    processStints ([] : List StintRow) = ([], []) ∧
    processPitStops ([] : List PitRow) = ([], []) ∧
    buildDriverColorMap ([] : List DriverRow) = ([], []) :=
  ⟨rfl, rfl, rfl, rfl⟩

/-- C9: on an empty sessions response (a frame with no columns),
`fetch_sessions` raises the missing-column error for `session_name` instead
of returning an empty dataset, while `fetch_meetings` guards the empty
case, surfaces the warning, and returns the empty dataset. -/
theorem fetchSessions_empty_raises :
    fetchSessions [] = Except.error (PandasErr.keyError "session_name") ∧
    fetchMeetings [] = (true, []) :=
  ⟨rfl, rfl⟩

/-- C3: the output of `process_lap_data` contains no row with an absent lap
duration, is sorted by (driver number, lap number) ascending, and the sort
is stable: for every key, the output rows with that key are exactly the
duration-present input rows with that key, in input order. -/
theorem processLapData_spec :
    ∀ df : List LapRow,
      ((processLapData df).2.all (fun r => r.lap_duration.isSome)) = true ∧
      ((processLapData df).2).Sorted lapOrder ∧
      (∀ k : Int × Int,
        (processLapData df).2.filter
            (fun r => decide ((r.driver_number, r.lap_number) = k)) =
          (df.filter (fun r => r.lap_duration.isSome)).filter
            (fun r => decide ((r.driver_number, r.lap_number) = k))) := by
  intro df
  cases df with
  | nil => exact ⟨rfl, List.sorted_nil, fun k => rfl⟩
  | cons a t =>
    have hres : (processLapData (a :: t)).2 =
        ((a :: t).filter (fun r => r.lap_duration.isSome)).insertionSort lapOrder := rfl
    refine ⟨?_, ?_, ?_⟩
    · rw [hres, List.all_eq_true]
      intro x hx
      have hx₂ : x ∈ (a :: t).filter (fun r => r.lap_duration.isSome) :=
        (List.mem_insertionSort _).mp hx
      exact (List.mem_filter.mp hx₂).2
    · rw [hres]
      exact List.sorted_insertionSort lapOrder _
    · intro k
      rw [hres]
      refine filter_insertionSort lapOrder _ (fun x y hx hy => ?_) _
      rw [decide_eq_true_eq] at hx hy
      have hxy : (x.driver_number, x.lap_number) = (y.driver_number, y.lap_number) :=
        hx.trans hy.symm
      rw [Prod.mk.injEq] at hxy
      exact Or.inr ⟨hxy.1, le_of_eq hxy.2⟩

/-- C8: `process_lap_data` is idempotent — applying it twice yields the
same result as applying it once (the second pass filters an
all-present dataset and re-sorts an already sorted one). -/
theorem processLapData_idempotent :
    ∀ df : List LapRow,
      (processLapData (processLapData df).2).2 = (processLapData df).2 := by
  intro df
  cases df with
  | nil => rfl
  | cons a t =>
    have hres : (processLapData (a :: t)).2 =
        ((a :: t).filter (fun r => r.lap_duration.isSome)).insertionSort lapOrder := rfl
    rw [hres, processLapData_snd]
    by_cases h₂ :
      (((a :: t).filter (fun r => r.lap_duration.isSome)).insertionSort lapOrder).isEmpty
    · rw [if_pos h₂]
    · rw [if_neg h₂]
      have hall : ∀ r ∈ ((a :: t).filter (fun r => r.lap_duration.isSome)).insertionSort lapOrder,
          r.lap_duration.isSome := by
        intro r hr
        have hr₂ : r ∈ (a :: t).filter (fun s => s.lap_duration.isSome) :=
          (List.mem_insertionSort _).mp hr
        exact (List.mem_filter.mp hr₂).2
      rw [List.filter_eq_self.mpr hall]
      exact List.Sorted.insertionSort_eq (List.sorted_insertionSort lapOrder _)

/-- C4: every output row of `process_stints` satisfies
`lap_count = lap_end - lap_start + 1`, the output is sorted by
(driver number, stint number) ascending, and every output row comes from an
input row unchanged except for the compound, which is the input compound
when present and "Unknown" when absent (so it is never absent; the output
compound column is total by construction). -/
theorem processStints_spec :
    ∀ df : List StintRow,
      ((processStints df).2.all
          (fun r => decide (r.lap_count = r.lap_end - r.lap_start + 1))) = true ∧
      ((processStints df).2).Sorted stintOutOrder ∧
      (∀ r ∈ (processStints df).2, ∃ s ∈ df,
        r.session_key = s.session_key ∧ r.driver_number = s.driver_number ∧
        r.stint_number = s.stint_number ∧ r.lap_start = s.lap_start ∧
        r.lap_end = s.lap_end ∧ r.tyre_age_at_start = s.tyre_age_at_start ∧
        r.compound = s.compound.getD "Unknown") := by
  intro df
  cases df with
  | nil => exact ⟨rfl, List.sorted_nil, fun r hr => absurd hr (List.not_mem_nil r)⟩
  | cons a t =>
    have hres : (processStints (a :: t)).2 =
        ((a :: t).insertionSort stintOrder).map stintOutOf := rfl
    refine ⟨?_, ?_, ?_⟩
    · rw [hres, List.all_eq_true]
      intro x hx
      obtain ⟨s, hs, rfl⟩ := List.mem_map.mp hx
      simp [stintOutOf]
    · rw [hres]
      refine List.pairwise_map.mpr ?_
      exact (List.sorted_insertionSort stintOrder (a :: t)).imp (fun h => h)
    · rw [hres]
      intro r hr
      obtain ⟨s, hs, rfl⟩ := List.mem_map.mp hr
      exact ⟨s, (List.mem_insertionSort _).mp hs, rfl, rfl, rfl, rfl, rfl, rfl, rfl⟩

/-- Sample stint row of the spec scenario: driver 44, stint 1, absent
compound, laps 1 to 20. -/
def sampleStint : StintRow :=
  { session_key := 9158, driver_number := 44, stint_number := 1, compound := none,
    lap_start := 1, lap_end := 20, tyre_age_at_start := 0 }

/-- The row `process_stints` produces from `sampleStint`. -/
def sampleStintOut : StintRowOut :=
  { session_key := 9158, driver_number := 44, stint_number := 1, compound := "Unknown",
    lap_start := 1, lap_end := 20, tyre_age_at_start := 0, lap_count := 20 }

/-- C4 witness: the spec scenario — the stint (driver 44, stint 1, absent
compound, laps 1 to 20) comes out with compound "Unknown" and a lap count
of 20. -/
theorem processStints_spec_witness :
    ((processStints [sampleStint]).2.all
        (fun r => decide (r.lap_count = r.lap_end - r.lap_start + 1))) = true ∧
    (∃ s ∈ [sampleStint],
      sampleStintOut.session_key = s.session_key ∧
      sampleStintOut.driver_number = s.driver_number ∧
      sampleStintOut.stint_number = s.stint_number ∧
      sampleStintOut.lap_start = s.lap_start ∧
      sampleStintOut.lap_end = s.lap_end ∧
      sampleStintOut.tyre_age_at_start = s.tyre_age_at_start ∧
      sampleStintOut.compound = s.compound.getD "Unknown") :=
  ⟨(processStints_spec [sampleStint]).1,
   (processStints_spec [sampleStint]).2.2 sampleStintOut (by decide)⟩

/-- Columns of a stint row other than the compound. -/
def stintBase (s : StintRow) : Int × Int × Int × Int × Int × Int :=
  (s.session_key, s.driver_number, s.stint_number, s.lap_start, s.lap_end, s.tyre_age_at_start)

/-- Columns of an output stint row other than the compound and the added
lap count. -/
def stintOutBase (r : StintRowOut) : Int × Int × Int × Int × Int × Int :=
  (r.session_key, r.driver_number, r.stint_number, r.lap_start, r.lap_end, r.tyre_age_at_start)

/-- C10: `process_stints` neither removes nor adds rows: the output has the
same row count as the input, the output rows restricted to the unchanged
columns are a permutation of the input rows, and each output row matches an
input row on every field other than compound (the only added column,
`lap_count`, is the extra field of the output row type). -/
theorem processStints_frame :
    ∀ df : List StintRow,
      ((processStints df).2).length = df.length ∧
      List.Perm ((processStints df).2.map stintOutBase) (df.map stintBase) ∧
      (∀ r ∈ (processStints df).2, ∃ s ∈ df,
        stintOutBase r = stintBase s ∧ r.compound = s.compound.getD "Unknown") := by
  intro df
  cases df with
  | nil => exact ⟨rfl, List.Perm.refl _, fun r hr => absurd hr (List.not_mem_nil r)⟩
  | cons a t =>
    have hres : (processStints (a :: t)).2 =
        ((a :: t).insertionSort stintOrder).map stintOutOf := rfl
    refine ⟨?_, ?_, ?_⟩
    · rw [hres, List.length_map, List.length_insertionSort]
    · rw [hres, List.map_map]
      have h₁ : ((a :: t).insertionSort stintOrder).map (stintOutBase ∘ stintOutOf) =
          ((a :: t).insertionSort stintOrder).map stintBase := rfl
      rw [h₁]
      exact (List.perm_insertionSort stintOrder (a :: t)).map stintBase
    · rw [hres]
      intro r hr
      obtain ⟨s, hs, rfl⟩ := List.mem_map.mp hr
      exact ⟨s, (List.mem_insertionSort _).mp hs, rfl, rfl⟩

/-- C10 witness: on the one-row scenario dataset the output has one row and
that row matches the input row on all columns other than compound. -/
theorem processStints_frame_witness :
    ((processStints [sampleStint]).2).length = 1 ∧
    (∃ s ∈ [sampleStint],
      stintOutBase sampleStintOut = stintBase s ∧
      sampleStintOut.compound = s.compound.getD "Unknown") :=
  ⟨(processStints_frame [sampleStint]).1,
   (processStints_frame [sampleStint]).2.2 sampleStintOut (by decide)⟩

/-- C5: `fetch_meetings` either returns the empty dataset after surfacing
the user-facing warning (when the API response is empty), or a dataset in
which every row is obtained from a response row with
`label = meeting_name + " - " + location` and its meeting key and year,
sorted by meeting key descending, with no duplicate rows.  The output row
type has exactly the columns `meeting_key`, `label`, `year` (the projection
of the source). -/
theorem fetchMeetings_spec :
    ∀ rows : List MeetingRow,
      (rows = [] → fetchMeetings rows = (true, [])) ∧
      (∀ o ∈ (fetchMeetings rows).2, ∃ r ∈ rows,
        o.label = r.meeting_name ++ " - " ++ r.location ∧
        o.meeting_key = r.meeting_key ∧ o.year = r.year) ∧
      ((fetchMeetings rows).2).Sorted (fun a b => b.meeting_key ≤ a.meeting_key) ∧
      ((fetchMeetings rows).2).Nodup := by
  intro rows
  cases rows with
  | nil =>
    exact ⟨fun _ => rfl, fun o ho => absurd ho (List.not_mem_nil o),
      List.sorted_nil, List.nodup_nil⟩
  | cons a t =>
    have hres : (fetchMeetings (a :: t)).2 =
        dropDuplicates ((((a :: t).map meetingLabOf).insertionSort meetingOrder).map
          meetingOutOf) := rfl
    refine ⟨fun h => absurd h (List.cons_ne_nil a t), ?_, ?_, ?_⟩
    · rw [hres]
      intro o ho
      have ho₂ := (dropDuplicates_sublist _).subset ho
      obtain ⟨x, hx, rfl⟩ := List.mem_map.mp ho₂
      obtain ⟨r, hr, rfl⟩ := List.mem_map.mp ((List.mem_insertionSort _).mp hx)
      exact ⟨r, hr, rfl, rfl, rfl⟩
    · rw [hres]
      refine List.Pairwise.sublist (dropDuplicates_sublist _) ?_
      refine List.pairwise_map.mpr ?_
      exact (List.sorted_insertionSort meetingOrder ((a :: t).map meetingLabOf)).imp
        (fun h => h)
    · rw [hres]
      exact dropDuplicates_nodup _

/-- Sample meeting row for the witness. -/
def sampleMeeting : MeetingRow :=
  { meeting_key := 1219, meeting_name := "Miami Grand Prix", location := "Miami",
    country_name := "United States", year := 2024 }

/-- The projected row `fetch_meetings` produces from `sampleMeeting`. -/
def sampleMeetingOut : MeetingOut :=
  { meeting_key := 1219, label := "Miami Grand Prix - Miami", year := 2024 }

/-- C5 witness: the empty response surfaces the warning and returns the
empty dataset, and on a one-row response the produced row carries the
concatenated label and the source key and year. -/
theorem fetchMeetings_spec_witness :
    fetchMeetings ([] : List MeetingRow) = (true, []) ∧
    (∃ r ∈ [sampleMeeting],
      sampleMeetingOut.label = r.meeting_name ++ " - " ++ r.location ∧
      sampleMeetingOut.meeting_key = r.meeting_key ∧ sampleMeetingOut.year = r.year) :=
  ⟨(fetchMeetings_spec []).1 rfl,
   (fetchMeetings_spec [sampleMeeting]).2.1 sampleMeetingOut (by decide)⟩

end OpenF1
